import Mathlib

set_option linter.unusedVariables false

/-!
Shallow embedding of the entitlement/metering core of
`expo-iap-ai-token-subscription`: the `TokenManager` and `RenewalService`
services (`src/services`), the `InMemoryAdapter` storage backend
(`src/adapters/InMemoryAdapter.ts`) and, where a claim compares backends,
the corresponding operations of `SupabaseAdapter`
(`src/adapters/SupabaseAdapter.ts`).

Modelling conventions, used throughout:
* Timestamps are epoch milliseconds (`Int`).  The TypeScript code stores
  `createdAt` / `lastRenewalAt` as ISO-8601 strings and converts them back
  with `new Date(s).getTime()`; at millisecond precision this round trip is
  the identity, so the model keeps the numeric instant directly and `none`
  stands for SQL/JS `null`.
* JavaScript truthiness: on the loosely-typed purchase event the code uses
  `a || b` chains and `!x` guards, under which `undefined`, `null`, `0` and
  the empty string are all falsy.  The helpers `truthyStr` / `truthyNum`
  encode exactly that.
* The wall clock (`Date.now()` / `new Date()`) is passed explicitly as a
  `now` argument to every operation that reads it.
* Asynchronous calls are sequential in the source (single-threaded
  cooperative model, §5 of the spec), so each operation is a pure function
  from state to state.
-/

/-- JavaScript truthiness filter for an optional string: `undefined`, `null`
and the empty string are falsy.  `truthyStr x = some s` exactly when `x`
holds a truthy string `s`. -/
def truthyStr : Option String → Option String
  | none => none
  | some s => if s = "" then none else some s

/-- JavaScript truthiness filter for an optional number: `undefined`, `null`
and `0` are falsy. -/
def truthyNum : Option Int → Option Int
  | none => none
  | some n => if n = 0 then none else some n

/-- A user record as stored by the adapters (`UserData` in `src/types`).
`subscriptionPlan = none` models the SQL/JS `null` (free tier);
`lastRenewalAt = none` means no billing-cycle reset was ever recorded. -/
structure UserData where
  deviceId : String
  subscriptionPlan : Option String
  generationsLeft : Int
  createdAt : Int
  lastRenewalAt : Option Int
deriving DecidableEq

/-- The loosely typed purchase/subscription event delivered by expo-iap,
restricted to the fields the library reads.  An absent (`undefined`) field is
`none`.  `renewalInfoRenewalDate` stands for `renewalInfoIOS?.renewalDate`. -/
structure Purchase where
  transactionId : Option String
  id : Option String
  originalTransactionIdentifierIOS : Option String
  transactionDate : Option Int
  purchaseDateIOS : Option Int
  expirationDateIOS : Option Int
  transactionReasonIOS : Option String
  reasonIOS : Option String
  productId : Option String
  isAutoRenewing : Option Bool
  environmentIOS : Option String
  renewalInfoRenewalDate : Option Int
deriving DecidableEq

/-- A stored subscription-transaction record (`SubscriptionData` in
`src/types`), with the fields `InMemoryAdapter.upsertSubscription` writes.
The opaque `purchaseData` audit copy of the raw event is omitted from the
model; no decision logic reads it. -/
structure SubscriptionData where
  transactionId : String
  originalTransactionId : Option String
  productId : String
  transactionDate : Int
  expirationDate : Option Int
  renewalDate : Option Int
  isActive : Bool
  isCancelled : Bool
  isAutoRenewing : Bool
  platform : String
  environment : String
  transactionReason : String
deriving DecidableEq

/-- The configuration consumed by `TokenManager` / `RenewalService`
(`TokenConfig` in `src/types`), restricted to the fields the modelled
operations read.  The three callback fields record whether the optional
callback is configured; the step functions report firings in their result
instead of performing effects. -/
structure TokenConfig where
  productId : String
  freeTierLimit : Int
  proTierLimit : Int
  onSubscriptionActivated : Bool
  onGenerationUsed : Bool
  onLimitReached : Bool
deriving DecidableEq

/-- The state of the storage backend: the `users` and `subscriptions` maps of
`InMemoryAdapter`, keyed by device id.  `upsertFails` injects the failure
mode the abstract `StorageAdapter` contract allows for `upsertSubscription`
(for example `SupabaseAdapter` returning `false` on a backend error); the
`InMemoryAdapter` itself never fails, i.e. corresponds to
`upsertFails = false`. -/
structure StoreState where
  users : String → Option UserData
  subs : String → List SubscriptionData
  upsertFails : Bool

/-- Point update of the `users` map (`this.users.set(deviceId, user)`). -/
def setUser (s : StoreState) (d : String) (u : UserData) : StoreState :=
  { s with users := fun k => if k = d then some u else s.users k }

/-- Point update of the `subscriptions` map
(`this.subscriptions.set(deviceId, userSubscriptions)`). -/
def setSubs (s : StoreState) (d : String) (l : List SubscriptionData) : StoreState :=
  { s with subs := fun k => if k = d then l else s.subs k }

/-- `InMemoryAdapter.getUserData`: `this.users.get(deviceId) || null`. -/
def getUserData (s : StoreState) (d : String) : Option UserData :=
  s.users d

/-- `InMemoryAdapter.updateGenerations`: fails when the user is missing,
otherwise overwrites `generationsLeft` with `count`. -/
def updateGenerations (s : StoreState) (d : String) (count : Int) : Bool × StoreState :=
  match s.users d with
  | none => (false, s)
  | some u => (true, setUser s d { u with generationsLeft := count })

/-- `InMemoryAdapter.updateSubscriptionPlan`: fails when the user is missing,
otherwise sets the plan, the generation balance and stamps `lastRenewalAt`
with the current wall-clock instant (`new Date().toISOString()`). -/
def updateSubscriptionPlan (s : StoreState) (d plan : String) (generations : Int)
    (now : Int) : Bool × StoreState :=
  match s.users d with
  | none => (false, s)
  | some u =>
      (true, setUser s d
        { u with
          subscriptionPlan := some plan
          generationsLeft := generations
          lastRenewalAt := some now })

/-- `InMemoryAdapter.cancelSubscription`: fails when the user is missing,
otherwise clears `subscriptionPlan` to `null` and touches nothing else. -/
def cancelSubscription (s : StoreState) (d : String) : Bool × StoreState :=
  match s.users d with
  | none => (false, s)
  | some u => (true, setUser s d { u with subscriptionPlan := none })

/-- `SupabaseAdapter.cancelSubscription`: issues
`update({ subscription_plan: null, generations_left: 0 }).eq('device_id', d)`.
A filter matching no row is not a PostgREST error, so the call reports
success even when the user row is absent. -/
def supabaseCancelSubscription (s : StoreState) (d : String) : Bool × StoreState :=
  match s.users d with
  | none => (true, s)
  | some u =>
      (true, setUser s d { u with subscriptionPlan := none, generationsLeft := 0 })

/-- The transaction id `InMemoryAdapter.upsertSubscription` keys a record by:
`purchase.transactionId || purchase.id || ` a `tx-`-prefixed stamp of
`Date.now()`. -/
def upsertTransactionId (p : Purchase) (now : Int) : String :=
  match truthyStr p.transactionId with
  | some s => s
  | none =>
    match truthyStr p.id with
    | some s => s
    | none => "tx-" ++ toString now

/-- The `SubscriptionData` record `InMemoryAdapter.upsertSubscription` builds
from the raw purchase event (defaults exactly as in the source: `||` chains
for strings and numbers, `?? true` for `isAutoRenewing`, conditional
`new Date(...)` for the nullable dates). -/
def buildSubscriptionData (p : Purchase) (tid : String) (now : Int) : SubscriptionData :=
  { transactionId := tid
    originalTransactionId := p.originalTransactionIdentifierIOS
    productId := (truthyStr p.productId).getD "unknown"
    transactionDate := (truthyNum p.transactionDate).getD now
    expirationDate := truthyNum p.expirationDateIOS
    renewalDate := truthyNum p.renewalInfoRenewalDate
    isActive := true
    isCancelled := false
    isAutoRenewing := p.isAutoRenewing.getD true
    platform := "ios"
    environment := (truthyStr p.environmentIOS).getD "Sandbox"
    transactionReason := (truthyStr p.transactionReasonIOS).getD "PURCHASE" }

/-- `findIndex`-then-replace-else-`push` of
`InMemoryAdapter.upsertSubscription`: the first record with the same
`transactionId` is replaced in place, otherwise the record is appended. -/
def upsertIntoList (data : SubscriptionData) : List SubscriptionData → List SubscriptionData
  | [] => [data]
  | x :: xs =>
    if x.transactionId = data.transactionId then data :: xs
    else x :: upsertIntoList data xs

/-- `InMemoryAdapter.upsertSubscription`.  When `upsertFails` is set the call
reports failure and writes nothing — the failure mode the abstract
`StorageAdapter` contract allows for this operation; the in-memory backend
itself always takes the `else` branch. -/
def upsertSubscription (s : StoreState) (d : String) (p : Purchase) (now : Int) :
    Bool × StoreState :=
  if s.upsertFails then (false, s)
  else
    let tid := upsertTransactionId p now
    let data := buildSubscriptionData p tid now
    (true, setSubs s d (upsertIntoList data (s.subs d)))

/-- The row transformation of `SupabaseAdapter.upsertSubscription` on one
device's `subscriptions` rows: `.select('id').eq('transaction_id', tid)
.single()` yields a row exactly when one row matches, in which case
`update(...).eq('transaction_id', tid)` overwrites every matching row;
otherwise the record is inserted. -/
def supabaseUpsertRows (data : SubscriptionData) (rows : List SubscriptionData) :
    List SubscriptionData :=
  if (rows.filter (fun r => r.transactionId = data.transactionId)).length = 1 then
    rows.map (fun r => if r.transactionId = data.transactionId then data else r)
  else rows ++ [data]

/-- `SupabaseAdapter.upsertSubscription`, restricted to one device's rows and
to the columns shared with the in-memory model (the Supabase row carries
extra columns, none of which participate in the `transaction_id` keying this
development reasons about).  The transaction id is
`purchase.transactionId || purchase.id`, and a missing id is an error
(`false`, nothing written). -/
def supabaseUpsertSubscription (rows : List SubscriptionData) (p : Purchase) (now : Int) :
    Bool × List SubscriptionData :=
  let tid? :=
    match truthyStr p.transactionId with
    | some s => some s
    | none => truthyStr p.id
  match tid? with
  | none => (false, rows)
  | some tid => (true, supabaseUpsertRows (buildSubscriptionData p tid now) rows)

/-- The observable outcome of one `TokenManager.useGeneration` call: the
returned boolean, the adapter state afterwards, and which configured
callbacks fired (`onGenerationUsed` with the new count, `onLimitReached`
with `!isSubscribed`). -/
structure UseGenerationResult where
  success : Bool
  state : StoreState
  generationUsedFired : Option Int
  limitReachedFired : Option Bool

/-- `TokenManager.useGeneration`: refuses (no mutation, no callback) when the
user record is missing or `generationsLeft <= 0`; otherwise writes
`Math.max(0, generationsLeft - 1)` and, on success, fires
`onGenerationUsed(newCount)` and — exactly when `newCount === 0` and the
callback is configured — `onLimitReached(!isSubscribed)`, where
`isSubscribed` is `subscriptionPlan !== null`. -/
def useGeneration (cfg : TokenConfig) (s : StoreState) (d : String) : UseGenerationResult :=
  match getUserData s d with
  | none => ⟨false, s, none, none⟩
  | some userData =>
    if userData.generationsLeft ≤ 0 then ⟨false, s, none, none⟩
    else
      let newCount := max 0 (userData.generationsLeft - 1)
      let result := updateGenerations s d newCount
      if result.1 then
        ⟨true, result.2,
          if cfg.onGenerationUsed then some newCount else none,
          if newCount = 0 then
            (if cfg.onLimitReached then some (!userData.subscriptionPlan.isSome) else none)
          else none⟩
      else ⟨false, result.2, none, none⟩

/-- Iterated `useGeneration`: `n` consecutive calls for the same device. -/
def runGenerations (cfg : TokenConfig) (d : String) : Nat → StoreState → StoreState
  | 0, s => s
  | n + 1, s => runGenerations cfg d n (useGeneration cfg s d).state

/-- `RenewalService.shouldRenew`: skip when the user record is missing or not
subscribed (`!userData.subscriptionPlan`), renew on a first activation
(`!userData.lastRenewalAt`), otherwise renew exactly when the event's
`transactionDate` is strictly newer than the stored `lastRenewalAt`. -/
def shouldRenew (s : StoreState) (d : String) (originalTransactionId : String)
    (transactionDate : Int) : Bool :=
  match getUserData s d with
  | none => false
  | some userData =>
    match truthyStr userData.subscriptionPlan with
    | none => false
    | some _ =>
      match userData.lastRenewalAt with
      | none => true
      | some lastRenewalDate => decide (transactionDate > lastRenewalDate)

/-- `RenewalService.processRenewal`: one `updateSubscriptionPlan` write with
the configured pro-tier limit (on success the source additionally fires the
`onSubscriptionActivated` callback, which no claim here concerns). -/
def processRenewal (cfg : TokenConfig) (s : StoreState) (d plan : String) (now : Int) :
    Bool × StoreState :=
  updateSubscriptionPlan s d plan cfg.proTierLimit now

/-- The event timestamp `RenewalService.checkAndHandleRenewal` works with:
`subscription.transactionDate || subscription.purchaseDateIOS || Date.now()`. -/
def effectiveTransactionDate (p : Purchase) (now : Int) : Int :=
  match truthyNum p.transactionDate with
  | some t => t
  | none =>
    match truthyNum p.purchaseDateIOS with
    | some t => t
    | none => now

/-- The liveness check of `checkAndHandleRenewal`:
`!expirationDate || expirationDate > now` (so an absent — or `0`, hence
falsy — expiration date counts as active). -/
def eventIsActive (p : Purchase) (now : Int) : Bool :=
  match truthyNum p.expirationDateIOS with
  | none => true
  | some e => decide (e > now)

/-- The decision part of `checkAndHandleRenewal`, evaluated before any write:
active, correlated (`originalTransactionIdentifierIOS` truthy) and
`shouldRenew`. -/
def renewDecision (s : StoreState) (d : String) (p : Purchase) (now : Int) : Bool :=
  eventIsActive p now &&
    match truthyStr p.originalTransactionIdentifierIOS with
    | none => false
    | some otid => shouldRenew s d otid (effectiveTransactionDate p now)

/-- `RenewalService.checkAndHandleRenewal`: the main reconciliation entry
point.  Skips (returns `false`, no write) when the event is expired, has no
truthy `originalTransactionIdentifierIOS`, or `shouldRenew` declines.
Otherwise it upserts the transaction record — the result of that call only
feeds logging — and then resets the user via `processRenewal('pro')`,
returning the result of the reset. -/
def checkAndHandleRenewal (cfg : TokenConfig) (s : StoreState) (d : String) (p : Purchase)
    (now : Int) : Bool × StoreState :=
  let transactionDate := effectiveTransactionDate p now
  if eventIsActive p now then
    match truthyStr p.originalTransactionIdentifierIOS with
    | none => (false, s)
    | some originalTransactionId =>
      if shouldRenew s d originalTransactionId transactionDate then
        let s1 := (upsertSubscription s d p now).2
        processRenewal cfg s1 d "pro" now
      else (false, s)
  else (false, s)

/-- Replaying `checkAndHandleRenewal` for the same event at the listed clock
instants, in order. -/
def runRenewals (cfg : TokenConfig) (d : String) (p : Purchase) :
    List Int → StoreState → StoreState
  | [], s => s
  | now :: rest, s => runRenewals cfg d p rest (checkAndHandleRenewal cfg s d p now).2

/-- Pairwise-distinct `transactionId`s: the §3 invariant that at most one
stored transaction exists per id. -/
def uniqueByTid (l : List SubscriptionData) : Prop :=
  l.Pairwise (fun a b => a.transactionId ≠ b.transactionId)

/-- A configuration with the defaults of `DEFAULT_CONFIG`
(`freeTierLimit = 5`, `proTierLimit = 100`) and the two metering callbacks
configured; used in concrete witnesses. -/
def cCfg : TokenConfig :=
  ⟨"pro.product", 5, 100, false, true, true⟩

/-- A subscribed user who never had a renewal reset recorded. -/
def cU0 : UserData :=
  ⟨"dev", some "pro", 3, 0, none⟩

/-- A store holding exactly `cU0`, no transaction records, healthy backend. -/
def cS0 : StoreState :=
  ⟨fun k => if k = "dev" then some cU0 else none, fun _ => [], false⟩

/-- A renewal event dated 5000 ms, correlated via `"o1"`, no expiration. -/
def cP1 : Purchase :=
  ⟨some "t1", none, some "o1", some 5000, none, none, none, none, some "pro", none, none, none⟩

/-- `cS0` over a backend whose transaction-record writes fail. -/
def cS3 : StoreState :=
  { cS0 with upsertFails := true }

/-- `cP1` with both timestamp fields absent (malformed per §7(c)). -/
def cP4 : Purchase :=
  { cP1 with transactionDate := none }

/-- A user subscribed with a recorded reset at 5 ms (for `shouldRenew`
witnesses). -/
def cU2 : UserData :=
  ⟨"dev", some "pro", 50, 0, some 5⟩

/-- A store holding exactly `cU2`. -/
def cS2 : StoreState :=
  ⟨fun k => if k = "dev" then some cU2 else none, fun _ => [], false⟩

/-- A subscribed user with 7 credits left (for the cancellation claim). -/
def cU5 : UserData :=
  ⟨"dev", some "pro", 7, 0, some 10⟩

/-- A store holding exactly `cU5`. -/
def cS5 : StoreState :=
  ⟨fun k => if k = "dev" then some cU5 else none, fun _ => [], false⟩

/-- `cP1` dated 400 ms with an epoch-0 expiration date. -/
def cP6 : Purchase :=
  { cP1 with transactionDate := some 400, expirationDateIOS := some 0 }

/-- A subscribed user with exactly 1 credit left (for the edge-triggered
callback claim). -/
def cU8 : UserData :=
  ⟨"dev", some "pro", 1, 0, none⟩

/-- A store holding exactly `cU8`. -/
def cS8 : StoreState :=
  ⟨fun k => if k = "dev" then some cU8 else none, fun _ => [], false⟩

/-- A store with one stored transaction record keyed `"t1"` (for the upsert
claim). -/
def cS9 : StoreState :=
  ⟨fun k => if k = "dev" then some cU0 else none,
   fun k => if k = "dev" then [buildSubscriptionData cP1 "t1" 100] else [], false⟩

/-! ## Shared lemmas -/

theorem setUser_users_self (s : StoreState) (d : String) (u : UserData) :
    (setUser s d u).users d = some u := by
  simp [setUser]

theorem setUser_subs (s : StoreState) (d : String) (u : UserData) :
    (setUser s d u).subs = s.subs := rfl

theorem upsertSubscription_users (s : StoreState) (d : String) (p : Purchase) (now : Int) :
    ((upsertSubscription s d p now).2).users = s.users := by
  unfold upsertSubscription
  split <;> rfl

theorem upsertSubscription_of_fails (s : StoreState) (d : String) (p : Purchase) (now : Int)
    (h : s.upsertFails = true) :
    upsertSubscription s d p now = (false, s) := by
  unfold upsertSubscription
  simp [h]

theorem shouldRenew_exists_user {s : StoreState} {d otid : String} {t : Int}
    (h : shouldRenew s d otid t = true) : ∃ u, s.users d = some u := by
  unfold shouldRenew getUserData at h
  cases hu : s.users d with
  | none => rw [hu] at h; exact absurd h (by simp)
  | some u => exact ⟨u, rfl⟩

theorem checkAndHandleRenewal_skip (cfg : TokenConfig) (s : StoreState) (d : String)
    (p : Purchase) (now : Int) (h : renewDecision s d p now = false) :
    checkAndHandleRenewal cfg s d p now = (false, s) := by
  unfold checkAndHandleRenewal
  unfold renewDecision at h
  cases hA : eventIsActive p now with
  | false => simp [hA]
  | true =>
    rw [hA] at h
    simp only [Bool.true_and] at h
    cases hO : truthyStr p.originalTransactionIdentifierIOS with
    | none => simp [hA, hO]
    | some otid =>
      rw [hO] at h
      have h' : shouldRenew s d otid (effectiveTransactionDate p now) = false := h
      simp [hA, hO, h']

theorem checkAndHandleRenewal_renew (cfg : TokenConfig) (s : StoreState) (d : String)
    (p : Purchase) (now : Int) (otid : String) (u : UserData)
    (hact : eventIsActive p now = true)
    (hotid : truthyStr p.originalTransactionIdentifierIOS = some otid)
    (hren : shouldRenew s d otid (effectiveTransactionDate p now) = true)
    (hu : s.users d = some u) :
    checkAndHandleRenewal cfg s d p now =
      (true, setUser ((upsertSubscription s d p now).2) d
        { u with
          subscriptionPlan := some "pro"
          generationsLeft := cfg.proTierLimit
          lastRenewalAt := some now }) := by
  unfold checkAndHandleRenewal
  rw [hact]
  simp only [if_true, hotid, hren, if_pos]
  unfold processRenewal updateSubscriptionPlan
  have husers : ((upsertSubscription s d p now).2).users d = some u := by
    rw [upsertSubscription_users]; exact hu
  rw [husers]

theorem eventIsActive_false_mono (p : Purchase) {a b : Int} (hab : a ≤ b)
    (h : eventIsActive p a = false) : eventIsActive p b = false := by
  unfold eventIsActive at h ⊢
  cases hE : truthyNum p.expirationDateIOS with
  | none => rw [hE] at h; exact absurd h (by simp)
  | some e =>
    rw [hE] at h
    simp only [decide_eq_false_iff_not, not_lt] at h ⊢
    omega

theorem step_then_skip (cfg : TokenConfig) (d : String) (p : Purchase) (T now₁ : Int)
    (s : StoreState)
    (hfix : ∀ t, effectiveTransactionDate p t = T)
    (hT : T ≤ now₁) :
    ∀ t, now₁ ≤ t →
      checkAndHandleRenewal cfg ((checkAndHandleRenewal cfg s d p now₁).2) d p t
        = (false, (checkAndHandleRenewal cfg s d p now₁).2) := by
  intro t ht
  by_cases hdec : renewDecision s d p now₁ = true
  · -- the first invocation renewed; afterwards `lastRenewalAt = now₁ ≥ T`
    have hact : eventIsActive p now₁ = true := by
      unfold renewDecision at hdec
      exact (Bool.and_eq_true_iff.mp hdec).1
    obtain ⟨otid, hotid, hren⟩ :
        ∃ otid, truthyStr p.originalTransactionIdentifierIOS = some otid ∧
          shouldRenew s d otid (effectiveTransactionDate p now₁) = true := by
      unfold renewDecision at hdec
      have h2 := (Bool.and_eq_true_iff.mp hdec).2
      cases hO : truthyStr p.originalTransactionIdentifierIOS with
      | none => rw [hO] at h2; exact absurd h2 (by simp)
      | some otid => rw [hO] at h2; exact ⟨otid, rfl, h2⟩
    obtain ⟨u, hu⟩ := shouldRenew_exists_user hren
    have hstate : (checkAndHandleRenewal cfg s d p now₁).2
        = setUser ((upsertSubscription s d p now₁).2) d
            { u with
              subscriptionPlan := some "pro"
              generationsLeft := cfg.proTierLimit
              lastRenewalAt := some now₁ } := by
      rw [checkAndHandleRenewal_renew cfg s d p now₁ otid u hact hotid hren hu]
    rw [hstate]
    apply checkAndHandleRenewal_skip
    unfold renewDecision
    have hsr : shouldRenew
        (setUser ((upsertSubscription s d p now₁).2) d
          { u with
            subscriptionPlan := some "pro"
            generationsLeft := cfg.proTierLimit
            lastRenewalAt := some now₁ }) d otid (effectiveTransactionDate p t) = false := by
      unfold shouldRenew getUserData
      rw [setUser_users_self, hfix t]
      simp [truthyStr]
      omega
    simp only [hotid, hsr, Bool.and_false]
  · replace hdec : renewDecision s d p now₁ = false := by simpa using hdec
    rw [checkAndHandleRenewal_skip cfg s d p now₁ hdec]
    apply checkAndHandleRenewal_skip
    unfold renewDecision at hdec ⊢
    cases hA : eventIsActive p now₁ with
    | false =>
      rw [eventIsActive_false_mono p ht hA]
      exact Bool.false_and _
    | true =>
      rw [hA] at hdec
      simp only [Bool.true_and] at hdec
      cases hO : truthyStr p.originalTransactionIdentifierIOS with
      | none => simp
      | some otid =>
        rw [hO] at hdec
        have h' : shouldRenew s d otid T = false := by
          have h0 : shouldRenew s d otid (effectiveTransactionDate p now₁) = false := hdec
          rwa [hfix now₁] at h0
        have h'' : shouldRenew s d otid (effectiveTransactionDate p t) = false := by
          rwa [hfix t]
        simp only [h'', Bool.and_false]

/-! ## C1 — idempotence of renewal replay -/

/-- C1 (amended): replaying the same subscription event is idempotent
provided the event carries a fixed timestamp `T` that is not in the future
of the first invocation's clock `now₁`, and the replays happen no earlier
than `now₁`.  Then the store state after `N ≥ 1` invocations of
`checkAndHandleRenewal` equals the state after the first invocation, and
every invocation after the first reports `false` (so at most one reset
occurs).  Without the `T ≤ now₁` proviso the property fails — see the
counterexample. -/
theorem renewal_replay_idempotent (cfg : TokenConfig) (d : String) (p : Purchase)
    (T now₁ : Int) (rest : List Int) (s : StoreState)
    (hfix : ∀ t, effectiveTransactionDate p t = T)
    (hT : T ≤ now₁)
    (hmono : ∀ t ∈ rest, now₁ ≤ t) :
    runRenewals cfg d p (now₁ :: rest) s = runRenewals cfg d p [now₁] s ∧
    ∀ t, now₁ ≤ t →
      (checkAndHandleRenewal cfg (runRenewals cfg d p [now₁] s) d p t).1 = false := by
  have hskip := step_then_skip cfg d p T now₁ s hfix hT
  have h1 : runRenewals cfg d p [now₁] s = (checkAndHandleRenewal cfg s d p now₁).2 := rfl
  constructor
  · have key : ∀ (l : List Int), (∀ x ∈ l, now₁ ≤ x) →
        runRenewals cfg d p l (checkAndHandleRenewal cfg s d p now₁).2
          = (checkAndHandleRenewal cfg s d p now₁).2 := by
      intro l
      induction l with
      | nil => intro _; rfl
      | cons x xs ih =>
        intro hall
        have hx := hall x (by simp)
        calc runRenewals cfg d p (x :: xs) (checkAndHandleRenewal cfg s d p now₁).2
            = runRenewals cfg d p xs
                (checkAndHandleRenewal cfg (checkAndHandleRenewal cfg s d p now₁).2 d p x).2 :=
              rfl
          _ = runRenewals cfg d p xs (checkAndHandleRenewal cfg s d p now₁).2 := by
              rw [hskip x hx]
          _ = (checkAndHandleRenewal cfg s d p now₁).2 :=
              ih (fun y hy => hall y (by simp [hy]))
    show runRenewals cfg d p rest (checkAndHandleRenewal cfg s d p now₁).2
        = runRenewals cfg d p [now₁] s
    rw [key rest hmono, h1]
  · intro t ht
    rw [h1, hskip t ht]

/-- Witness for `renewal_replay_idempotent`: an event dated 5000 ms replayed
at clock instants 6000 and 7000 leaves the same state as processing it
once. -/
theorem renewal_replay_idempotent_witness :
    runRenewals cCfg "dev" cP1 [6000, 7000] cS0 = runRenewals cCfg "dev" cP1 [6000] cS0 :=
  (renewal_replay_idempotent cCfg "dev" cP1 5000 6000 [7000] cS0
    (fun _ => rfl) (by decide) (by decide)).1

/-- C1 counterexample: the claim as stated is false.  For the event `cP1`
whose fixed `transactionDate` (5000 ms) lies in the future of the clock,
replaying `checkAndHandleRenewal` a second time performs a second reset:
after invocations at 1000 and 2000 the stored `lastRenewalAt` is 2000,
whereas after the first invocation alone it is 1000. -/
theorem renewal_replay_counterexample :
    ((runRenewals cCfg "dev" cP1 [1000, 2000] cS0).users "dev").map UserData.lastRenewalAt
      ≠ ((runRenewals cCfg "dev" cP1 [1000] cS0).users "dev").map UserData.lastRenewalAt := by
  decide

/-! ## C2 — the `shouldRenew` decision -/

/-- C2: for a stored user whose `subscriptionPlan` is non-null and
non-empty, `shouldRenew` returns `true` exactly when `lastRenewalAt` is
null or the event's `transactionDate` is strictly newer; in particular a
`transactionDate` equal to `lastRenewalAt` yields `false`.  For an absent
user record, or one whose plan is null or empty, `shouldRenew` is `false`. -/
theorem shouldRenew_spec (s : StoreState) (d otid : String) (t : Int) :
    (∀ u pl, s.users d = some u → u.subscriptionPlan = some pl → pl ≠ "" →
      (shouldRenew s d otid t = true ↔
        (u.lastRenewalAt = none ∨ ∃ L, u.lastRenewalAt = some L ∧ L < t)))
    ∧ (∀ u L, s.users d = some u → u.lastRenewalAt = some L → t = L →
        shouldRenew s d otid t = false)
    ∧ (s.users d = none → shouldRenew s d otid t = false)
    ∧ (∀ u, s.users d = some u →
        (u.subscriptionPlan = none ∨ u.subscriptionPlan = some "") →
        shouldRenew s d otid t = false) := by
  refine ⟨?_, ?_, ?_, ?_⟩
  · intro u pl hu hpl hne
    simp only [shouldRenew, getUserData, hu, hpl, truthyStr, if_neg hne]
    cases hL : u.lastRenewalAt with
    | none => simp
    | some L => simp
  · intro u L hu hL ht
    simp only [shouldRenew, getUserData, hu]
    cases hP : truthyStr u.subscriptionPlan with
    | none => rfl
    | some pl =>
      simp only [hL]
      simp [ht]
  · intro hu
    simp [shouldRenew, getUserData, hu]
  · intro u hu hpl
    have hP : truthyStr u.subscriptionPlan = none := by
      rcases hpl with h | h <;> simp [truthyStr, h]
    simp [shouldRenew, getUserData, hu, hP]

/-- Witness for `shouldRenew_spec`: the subscribed user `cU2`
(`lastRenewalAt = 5`) renews for an event dated 10 and skips one dated 5. -/
theorem shouldRenew_spec_witness :
    shouldRenew cS2 "dev" "o1" 10 = true ∧ shouldRenew cS2 "dev" "o1" 5 = false := by
  constructor
  · exact ((shouldRenew_spec cS2 "dev" "o1" 10).1 cU2 "pro" (by decide) rfl
      (by decide)).mpr (Or.inr ⟨5, rfl, by decide⟩)
  · exact (shouldRenew_spec cS2 "dev" "o1" 5).2.1 cU2 5 (by decide) rfl rfl

/-! ## C3 — atomicity across the renew transition -/

/-- C3 (amended): the renew transition is not atomic across the two records.
When the transaction-record write fails (`upsertSubscription` returns
`false`), `checkAndHandleRenewal` nevertheless proceeds and fully resets the
user record — plan `"pro"`, balance `proTierLimit`, `lastRenewalAt := now` —
leaving the transaction store untouched.  Only each individual record write
is atomic. -/
theorem renew_reset_despite_failed_upsert (cfg : TokenConfig) (s : StoreState)
    (d : String) (p : Purchase) (now : Int) (otid : String) (u : UserData)
    (hfail : s.upsertFails = true)
    (hact : eventIsActive p now = true)
    (hotid : truthyStr p.originalTransactionIdentifierIOS = some otid)
    (hren : shouldRenew s d otid (effectiveTransactionDate p now) = true)
    (hu : s.users d = some u) :
    checkAndHandleRenewal cfg s d p now =
      (true, setUser s d
        { u with
          subscriptionPlan := some "pro"
          generationsLeft := cfg.proTierLimit
          lastRenewalAt := some now }) := by
  rw [checkAndHandleRenewal_renew cfg s d p now otid u hact hotid hren hu,
    upsertSubscription_of_fails s d p now hfail]

/-- Witness for `renew_reset_despite_failed_upsert` on the concrete failing
store `cS3`. -/
theorem renew_reset_despite_failed_upsert_witness :
    checkAndHandleRenewal cCfg cS3 "dev" cP1 1000 =
      (true, setUser cS3 "dev"
        { cU0 with
          subscriptionPlan := some "pro"
          generationsLeft := cCfg.proTierLimit
          lastRenewalAt := some 1000 }) :=
  renew_reset_despite_failed_upsert cCfg cS3 "dev" cP1 1000 "o1" cU0
    rfl rfl rfl (by decide) (by decide)

/-- C3 counterexample: with the transaction-record write failing
(`cS3.upsertFails = true`, so `upsertSubscription` returns `false`),
`checkAndHandleRenewal` still mutates the user record: `generationsLeft`
goes from 3 to 100 — contradicting "if persisting the transaction record
fails, no mutation of the user record occurs". -/
theorem renew_atomicity_counterexample :
    (upsertSubscription cS3 "dev" cP1 1000).1 = false ∧
    ((checkAndHandleRenewal cCfg cS3 "dev" cP1 1000).2.users "dev").map
        UserData.generationsLeft = some 100 ∧
    (cS3.users "dev").map UserData.generationsLeft = some 3 := by
  refine ⟨rfl, ?_, rfl⟩
  decide

/-! ## C4 — events lacking a timestamp -/

theorem effectiveTransactionDate_of_absent (p : Purchase) (now : Int)
    (h1 : truthyNum p.transactionDate = none)
    (h2 : truthyNum p.purchaseDateIOS = none) :
    effectiveTransactionDate p now = now := by
  simp only [effectiveTransactionDate, h1, h2]

theorem effectiveTransactionDate_stamped (p : Purchase) (now : Int)
    (h2 : truthyNum p.purchaseDateIOS = none) :
    effectiveTransactionDate { p with transactionDate := some now } now = now := by
  show (match truthyNum (some now) with
    | some t => t
    | none =>
      match truthyNum p.purchaseDateIOS with
      | some t => t
      | none => now) = now
  by_cases hn : now = 0
  · rw [show truthyNum (some now) = none by simp [truthyNum, hn]]
    simp [h2]
  · rw [show truthyNum (some now) = some now by simp [truthyNum, hn]]

theorem buildSubscriptionData_stamped (p : Purchase) (now : Int)
    (h1 : truthyNum p.transactionDate = none) :
    ∀ tid, buildSubscriptionData { p with transactionDate := some now } tid now
      = buildSubscriptionData p tid now := by
  intro tid
  unfold buildSubscriptionData
  simp only [SubscriptionData.mk.injEq, and_true, true_and]
  show (truthyNum (some now)).getD now = (truthyNum p.transactionDate).getD now
  rw [h1]
  by_cases hn : now = 0 <;> simp [truthyNum, hn]

theorem upsertSubscription_stamped (s : StoreState) (d : String) (p : Purchase) (now : Int)
    (h1 : truthyNum p.transactionDate = none) :
    upsertSubscription s d { p with transactionDate := some now } now
      = upsertSubscription s d p now := by
  simp only [upsertSubscription]
  rw [show upsertTransactionId { p with transactionDate := some now } now
      = upsertTransactionId p now from rfl]
  rw [buildSubscriptionData_stamped p now h1]

/-- C4 (amended): an event that lacks both timestamp fields is NOT treated
as malformed and skipped.  Instead `checkAndHandleRenewal` defaults the
transaction date to the current clock (`|| Date.now()`) and processes the
event exactly as if it had arrived stamped `transactionDate = now` — in
particular it can perform a reset and return `true`.  Only a missing
`originalTransactionIdentifierIOS` causes the malformed-skip of §7(c). -/
theorem timestampless_event_defaults_to_now (cfg : TokenConfig) (s : StoreState)
    (d : String) (p : Purchase) (now : Int)
    (h1 : truthyNum p.transactionDate = none)
    (h2 : truthyNum p.purchaseDateIOS = none) :
    checkAndHandleRenewal cfg s d p now
      = checkAndHandleRenewal cfg s d { p with transactionDate := some now } now := by
  simp only [checkAndHandleRenewal]
  rw [show eventIsActive { p with transactionDate := some now } now
      = eventIsActive p now from rfl]
  rw [show truthyStr ({ p with transactionDate := some now } :
      Purchase).originalTransactionIdentifierIOS
      = truthyStr p.originalTransactionIdentifierIOS from rfl]
  rw [effectiveTransactionDate_of_absent p now h1 h2,
    effectiveTransactionDate_stamped p now h2,
    upsertSubscription_stamped s d p now h1]

/-- Witness for `timestampless_event_defaults_to_now` at the concrete
timestampless event `cP4`. -/
theorem timestampless_event_defaults_to_now_witness :
    checkAndHandleRenewal cCfg cS0 "dev" cP4 1000
      = checkAndHandleRenewal cCfg cS0 "dev" { cP4 with transactionDate := some 1000 } 1000 :=
  timestampless_event_defaults_to_now cCfg cS0 "dev" cP4 1000 rfl rfl

/-- C4 counterexample: the timestampless event `cP4` (no `transactionDate`,
no `purchaseDateIOS`) is not skipped: `checkAndHandleRenewal` returns `true`
and resets the subscribed user's balance from 3 to 100, contradicting
"returns false (not renewed) and performs no reset". -/
theorem timestampless_event_counterexample :
    (checkAndHandleRenewal cCfg cS0 "dev" cP4 1000).1 = true ∧
    ((checkAndHandleRenewal cCfg cS0 "dev" cP4 1000).2.users "dev").map
        UserData.generationsLeft = some 100 ∧
    (cS0.users "dev").map UserData.generationsLeft = some 3 := by
  refine ⟨rfl, ?_, rfl⟩
  decide

/-! ## C5 — cancellation across the two adapters -/

/-- C5 (amended): `InMemoryAdapter.cancelSubscription` clears
`subscriptionPlan` to null and changes nothing else (every other field of
the user record is preserved).  `SupabaseAdapter.cancelSubscription`
additionally sets `generationsLeft` to 0, so the two reference
implementations do NOT have identical observable behaviour on
cancellation. -/
theorem cancelSubscription_spec (s : StoreState) (d : String) (u : UserData)
    (hu : s.users d = some u) :
    cancelSubscription s d = (true, setUser s d { u with subscriptionPlan := none })
    ∧ supabaseCancelSubscription s d
        = (true, setUser s d { u with subscriptionPlan := none, generationsLeft := 0 }) := by
  constructor
  · unfold cancelSubscription
    rw [hu]
  · unfold supabaseCancelSubscription
    rw [hu]

/-- Witness for `cancelSubscription_spec` on the concrete store `cS5`. -/
theorem cancelSubscription_spec_witness :
    cancelSubscription cS5 "dev" = (true, setUser cS5 "dev" { cU5 with subscriptionPlan := none })
    ∧ supabaseCancelSubscription cS5 "dev"
        = (true, setUser cS5 "dev" { cU5 with subscriptionPlan := none, generationsLeft := 0 }) :=
  cancelSubscription_spec cS5 "dev" cU5 (by decide)

/-- C5 counterexample: cancelling the subscribed user `cU5` (7 credits left)
leaves 7 credits in the in-memory adapter but 0 in the Supabase adapter — the
observable behaviour of the two reference implementations differs, and the
durable backend does not "change nothing else". -/
theorem cancelSubscription_counterexample :
    ((cancelSubscription cS5 "dev").2.users "dev").map UserData.generationsLeft = some 7 ∧
    ((supabaseCancelSubscription cS5 "dev").2.users "dev").map UserData.generationsLeft
      = some 0 ∧
    ((cancelSubscription cS5 "dev").2.users "dev")
      ≠ ((supabaseCancelSubscription cS5 "dev").2.users "dev") := by
  refine ⟨?_, ?_, ?_⟩ <;> decide

/-! ## C6 — expired events are skipped -/

/-- C6 (amended): an event whose `expirationDate` is present, non-zero and
at or before the current time is skipped: `checkAndHandleRenewal` returns
`false` and leaves the state untouched, regardless of every other event
field and of the stored user state.  The non-zero proviso is forced by
JavaScript truthiness: `!expirationDate` treats the epoch instant `0` as
absent, so an event expiring exactly at epoch 0 is NOT skipped — see the
counterexample. -/
theorem expired_event_skipped (cfg : TokenConfig) (s : StoreState) (d : String)
    (p : Purchase) (now e : Int)
    (he : p.expirationDateIOS = some e) (hnz : e ≠ 0) (hle : e ≤ now) :
    checkAndHandleRenewal cfg s d p now = (false, s) := by
  have hact : eventIsActive p now = false := by
    unfold eventIsActive
    rw [he, show truthyNum (some e) = some e by simp [truthyNum, hnz]]
    show decide (e > now) = false
    simp only [decide_eq_false_iff_not, not_lt]
    exact hle
  unfold checkAndHandleRenewal
  rw [hact]
  simp

/-- Witness for `expired_event_skipped`: the event `cP1` expiring at 900 ms
is skipped at clock 1000. -/
theorem expired_event_skipped_witness :
    checkAndHandleRenewal cCfg cS0 "dev" { cP1 with expirationDateIOS := some 900 } 1000
      = (false, cS0) :=
  expired_event_skipped cCfg cS0 "dev" { cP1 with expirationDateIOS := some 900 } 1000 900
    rfl (by decide) (by decide)

/-- C6 counterexample: the event `cP6` has `expirationDate` present and equal
to epoch 0 — which is at or before the clock 5000 — yet `checkAndHandleRenewal`
does not skip it: it returns `true` and resets the user's balance from 3
to 100, because `!expirationDate` treats the falsy value `0` as absent. -/
theorem expired_event_counterexample :
    cP6.expirationDateIOS = some 0 ∧
    (checkAndHandleRenewal cCfg cS0 "dev" cP6 5000).1 = true ∧
    ((checkAndHandleRenewal cCfg cS0 "dev" cP6 5000).2.users "dev").map
        UserData.generationsLeft = some 100 := by
  refine ⟨rfl, rfl, ?_⟩
  decide

/-! ## C7 / C8 — generation consumption -/

theorem useGeneration_absent (cfg : TokenConfig) (s : StoreState) (d : String)
    (hu : s.users d = none) :
    useGeneration cfg s d = ⟨false, s, none, none⟩ := by
  simp [useGeneration, getUserData, hu]

theorem useGeneration_empty (cfg : TokenConfig) (s : StoreState) (d : String) (u : UserData)
    (hu : s.users d = some u) (hz : u.generationsLeft ≤ 0) :
    useGeneration cfg s d = ⟨false, s, none, none⟩ := by
  simp [useGeneration, getUserData, hu, hz]

theorem useGeneration_pos (cfg : TokenConfig) (s : StoreState) (d : String) (u : UserData)
    (hu : s.users d = some u) (hpos : 0 < u.generationsLeft) :
    useGeneration cfg s d =
      ⟨true, setUser s d { u with generationsLeft := max 0 (u.generationsLeft - 1) },
        if cfg.onGenerationUsed then some (max 0 (u.generationsLeft - 1)) else none,
        if max 0 (u.generationsLeft - 1) = 0 then
          (if cfg.onLimitReached then some (!u.subscriptionPlan.isSome) else none)
        else none⟩ := by
  have hng : ¬ u.generationsLeft ≤ 0 := by omega
  simp [useGeneration, getUserData, hu, if_neg hng, updateGenerations]

theorem useGeneration_state_nonneg (cfg : TokenConfig) (s : StoreState) (d : String)
    (hinv : ∀ u, s.users d = some u → 0 ≤ u.generationsLeft) :
    ∀ u, (useGeneration cfg s d).state.users d = some u → 0 ≤ u.generationsLeft := by
  intro u' hu'
  cases hs : s.users d with
  | none =>
    rw [useGeneration_absent cfg s d hs] at hu'
    exact hinv u' hu'
  | some u0 =>
    by_cases hz : u0.generationsLeft ≤ 0
    · rw [useGeneration_empty cfg s d u0 hs hz] at hu'
      exact hinv u' hu'
    · rw [useGeneration_pos cfg s d u0 hs (by omega)] at hu'
      rw [setUser_users_self] at hu'
      cases hu'
      simp

theorem runGenerations_nonneg (cfg : TokenConfig) (d : String) :
    ∀ (n : Nat) (s : StoreState), (∀ u, s.users d = some u → 0 ≤ u.generationsLeft) →
      ∀ u, (runGenerations cfg d n s).users d = some u → 0 ≤ u.generationsLeft := by
  intro n
  induction n with
  | zero => intro s hinv u hu; exact hinv u hu
  | succ n ih =>
    intro s hinv u hu
    exact ih (useGeneration cfg s d).state
      (useGeneration_state_nonneg cfg s d hinv) u hu

/-- C7: the balance floor.  `useGeneration` fails with no mutation and no
callback when the user record is absent or the balance is already ≤ 0;
when the balance is positive it succeeds and decrements by exactly 1; and
along any sequence of `useGeneration` calls a non-negative balance stays
non-negative. -/
theorem useGeneration_balance_floor (cfg : TokenConfig) (d : String) :
    (∀ s, s.users d = none → useGeneration cfg s d = ⟨false, s, none, none⟩)
    ∧ (∀ s u, s.users d = some u → u.generationsLeft ≤ 0 →
        useGeneration cfg s d = ⟨false, s, none, none⟩)
    ∧ (∀ s u, s.users d = some u → 0 < u.generationsLeft →
        (useGeneration cfg s d).success = true ∧
        ((useGeneration cfg s d).state.users d).map UserData.generationsLeft
          = some (u.generationsLeft - 1))
    ∧ (∀ (n : Nat) s, (∀ u, s.users d = some u → 0 ≤ u.generationsLeft) →
        ∀ u, (runGenerations cfg d n s).users d = some u → 0 ≤ u.generationsLeft) := by
  refine ⟨fun s hu => useGeneration_absent cfg s d hu,
    fun s u hu hz => useGeneration_empty cfg s d u hu hz, ?_, ?_⟩
  · intro s u hu hpos
    rw [useGeneration_pos cfg s d u hu hpos]
    constructor
    · rfl
    · rw [setUser_users_self]
      simp
      omega
  · intro n s hinv u hu
    exact runGenerations_nonneg cfg d n s hinv u hu

/-- Witness for `useGeneration_balance_floor`: consuming on the concrete
store `cS0` (balance 3) succeeds and leaves balance 2. -/
theorem useGeneration_balance_floor_witness :
    (useGeneration cCfg cS0 "dev").success = true ∧
    ((useGeneration cCfg cS0 "dev").state.users "dev").map UserData.generationsLeft
      = some 2 :=
  (useGeneration_balance_floor cCfg "dev").2.2.1 cS0 cU0 (by decide) (by decide)

/-- C8: the limit-reached callback is edge-triggered.  With the callback
configured and the user record present, `useGeneration` reports an
`onLimitReached` firing exactly when the call succeeds from a balance of 1
(the 1 → 0 transition); and after that transition the next call fails and
does not refire the callback. -/
theorem limitReached_edge_triggered (cfg : TokenConfig) (s : StoreState) (d : String)
    (u : UserData) (hcb : cfg.onLimitReached = true) (hu : s.users d = some u) :
    ((useGeneration cfg s d).limitReachedFired.isSome = true ↔
      ((useGeneration cfg s d).success = true ∧ u.generationsLeft = 1))
    ∧ (u.generationsLeft = 1 →
        (useGeneration cfg (useGeneration cfg s d).state d).success = false ∧
        (useGeneration cfg (useGeneration cfg s d).state d).limitReachedFired = none) := by
  constructor
  · by_cases hz : u.generationsLeft ≤ 0
    · rw [useGeneration_empty cfg s d u hu hz]
      simp
    · rw [useGeneration_pos cfg s d u hu (by omega)]
      by_cases h1 : u.generationsLeft = 1
      · have : max 0 (u.generationsLeft - 1) = 0 := by omega
        simp [this, hcb, h1]
      · have : max 0 (u.generationsLeft - 1) ≠ 0 := by omega
        simp [this, h1]
  · intro h1
    have hstep := useGeneration_pos cfg s d u hu (by omega)
    rw [hstep]
    have hzero : ({ u with generationsLeft := max 0 (u.generationsLeft - 1) } :
        UserData).generationsLeft ≤ 0 := by
      show max 0 (u.generationsLeft - 1) ≤ 0
      omega
    rw [useGeneration_empty cfg _ d _ (setUser_users_self s d _) hzero]
    exact ⟨rfl, rfl⟩

/-- Witness for `limitReached_edge_triggered`: on the concrete store `cS8`
(balance 1) the callback fires on the successful 1 → 0 call and not on the
following failed call. -/
theorem limitReached_edge_triggered_witness :
    (useGeneration cCfg cS8 "dev").limitReachedFired.isSome = true ∧
    (useGeneration cCfg (useGeneration cCfg cS8 "dev").state "dev").limitReachedFired
      = none := by
  have h := limitReached_edge_triggered cCfg cS8 "dev" cU8 rfl (by decide)
  exact ⟨h.1.mpr ⟨by decide, rfl⟩, (h.2 rfl).2⟩

/-! ## C9 — upsert keeps one record per transaction id -/

theorem mem_upsertIntoList (data : SubscriptionData) (l : List SubscriptionData) :
    ∀ y ∈ upsertIntoList data l, y = data ∨ y ∈ l := by
  induction l with
  | nil =>
    intro y hy
    simp [upsertIntoList] at hy
    exact Or.inl hy
  | cons x xs ih =>
    intro y hy
    unfold upsertIntoList at hy
    by_cases hx : x.transactionId = data.transactionId
    · rw [if_pos hx] at hy
      rcases List.mem_cons.mp hy with h | h
      · exact Or.inl h
      · exact Or.inr (List.mem_cons_of_mem x h)
    · rw [if_neg hx] at hy
      rcases List.mem_cons.mp hy with h | h
      · exact Or.inr (by simp [h])
      · rcases ih y h with h' | h'
        · exact Or.inl h'
        · exact Or.inr (by simp [h'])

theorem uniqueByTid_upsertIntoList (data : SubscriptionData) (l : List SubscriptionData)
    (h : uniqueByTid l) : uniqueByTid (upsertIntoList data l) := by
  induction l with
  | nil => simp [upsertIntoList, uniqueByTid]
  | cons x xs ih =>
    unfold uniqueByTid at h
    rw [List.pairwise_cons] at h
    obtain ⟨hx, hxs⟩ := h
    unfold upsertIntoList
    by_cases he : x.transactionId = data.transactionId
    · rw [if_pos he]
      unfold uniqueByTid
      rw [List.pairwise_cons]
      exact ⟨fun b hb => by rw [← he]; exact hx b hb, hxs⟩
    · rw [if_neg he]
      unfold uniqueByTid
      rw [List.pairwise_cons]
      constructor
      · intro b hb
        rcases mem_upsertIntoList data xs b hb with h' | h'
        · rw [h']; exact he
        · exact hx b h'
      · exact ih hxs

theorem upsertIntoList_replace (data : SubscriptionData) (l : List SubscriptionData)
    (h : uniqueByTid l) (hm : data.transactionId ∈ l.map SubscriptionData.transactionId) :
    ∃ l1 old l2, l = l1 ++ old :: l2 ∧ old.transactionId = data.transactionId ∧
      upsertIntoList data l = l1 ++ data :: l2 := by
  induction l with
  | nil => simp at hm
  | cons x xs ih =>
    by_cases he : x.transactionId = data.transactionId
    · exact ⟨[], x, xs, by simp, he, by simp [upsertIntoList, if_pos he]⟩
    · have hm' : data.transactionId ∈ xs.map SubscriptionData.transactionId := by
        rcases List.mem_map.mp hm with ⟨a, ha, hae⟩
        rcases List.mem_cons.mp ha with h' | h'
        · rw [h'] at hae; exact absurd hae he
        · exact List.mem_map.mpr ⟨a, h', hae⟩
      have hxs : uniqueByTid xs := (List.pairwise_cons.mp h).2
      obtain ⟨l1, old, l2, heq, hold, hres⟩ := ih hxs hm'
      exact ⟨x :: l1, old, l2, by simp [heq], hold,
        by simp [upsertIntoList, if_neg he, hres]⟩

theorem filter_tid_singleton (t : String) (l : List SubscriptionData) (h : uniqueByTid l)
    (hm : t ∈ l.map SubscriptionData.transactionId) :
    (l.filter (fun r => r.transactionId = t)).length = 1 := by
  induction l with
  | nil => simp at hm
  | cons x xs ih =>
    have hxs : uniqueByTid xs := (List.pairwise_cons.mp h).2
    have hx : ∀ b ∈ xs, x.transactionId ≠ b.transactionId := (List.pairwise_cons.mp h).1
    by_cases he : x.transactionId = t
    · have hnone : xs.filter (fun r => r.transactionId = t) = [] := by
        rw [List.filter_eq_nil_iff]
        intro b hb
        simp only [decide_eq_true_eq]
        intro hbt
        exact hx b hb (by rw [he, hbt])
      simp [List.filter_cons, he, hnone]
    · have hm' : t ∈ xs.map SubscriptionData.transactionId := by
        rcases List.mem_map.mp hm with ⟨a, ha, hae⟩
        rcases List.mem_cons.mp ha with h' | h'
        · rw [h'] at hae; exact absurd hae he
        · exact List.mem_map.mpr ⟨a, h', hae⟩
      rw [List.filter_cons, if_neg (by simp [he])]
      exact ih hxs hm'

theorem uniqueByTid_supabaseUpsertRows (data : SubscriptionData)
    (rows : List SubscriptionData) (h : uniqueByTid rows) :
    uniqueByTid (supabaseUpsertRows data rows) := by
  unfold supabaseUpsertRows
  by_cases hc : (rows.filter (fun r => r.transactionId = data.transactionId)).length = 1
  · rw [if_pos hc]
    unfold uniqueByTid at h ⊢
    rw [List.pairwise_map]
    refine h.imp ?_
    intro a b hab
    by_cases ha : a.transactionId = data.transactionId
    · by_cases hb : b.transactionId = data.transactionId
      · exact absurd (ha.trans hb.symm) hab
      · rw [if_pos ha, if_neg hb, ← ha]
        exact hab
    · by_cases hb : b.transactionId = data.transactionId
      · rw [if_neg ha, if_pos hb, ← hb]
        exact hab
      · rw [if_neg ha, if_neg hb]
        exact hab
  · rw [if_neg hc]
    have hnm : data.transactionId ∉ rows.map SubscriptionData.transactionId := by
      intro hmem
      exact hc (filter_tid_singleton _ rows h hmem)
    unfold uniqueByTid at h ⊢
    rw [List.pairwise_append]
    refine ⟨h, List.pairwise_singleton _ _, ?_⟩
    intro a ha b hb
    simp only [List.mem_singleton] at hb
    subst hb
    intro he
    exact hnm (List.mem_map.mpr ⟨a, ha, he⟩)

theorem supabaseUpsertRows_length (data : SubscriptionData) (rows : List SubscriptionData)
    (h : uniqueByTid rows)
    (hm : data.transactionId ∈ rows.map SubscriptionData.transactionId) :
    (supabaseUpsertRows data rows).length = rows.length := by
  unfold supabaseUpsertRows
  rw [if_pos (filter_tid_singleton _ rows h hm)]
  simp

theorem upsertSubscription_subs (s : StoreState) (d : String) (p : Purchase) (now : Int)
    (hf : s.upsertFails = false) :
    (upsertSubscription s d p now).2.subs d
      = upsertIntoList (buildSubscriptionData p (upsertTransactionId p now) now) (s.subs d) := by
  simp [upsertSubscription, hf, setSubs]

theorem upsertSubscription_unique (s : StoreState) (d : String) (p : Purchase) (now : Int)
    (h : uniqueByTid (s.subs d)) :
    uniqueByTid ((upsertSubscription s d p now).2.subs d) := by
  cases hf : s.upsertFails with
  | false =>
    rw [upsertSubscription_subs s d p now hf]
    exact uniqueByTid_upsertIntoList _ _ h
  | true =>
    rw [upsertSubscription_of_fails s d p now hf]
    exact h

theorem foldl_upsert_unique (d : String) (events : List (Purchase × Int)) :
    ∀ s, uniqueByTid (s.subs d) →
      uniqueByTid ((events.foldl (fun st e => (upsertSubscription st d e.1 e.2).2) s).subs d) := by
  induction events with
  | nil => intro s h; exact h
  | cons e es ih =>
    intro s h
    exact ih _ (upsertSubscription_unique s d e.1 e.2 h)

/-- C9: upsert keeps at most one stored record per `transactionId`.  For the
in-memory adapter: any single upsert — and hence any sequence of upserts —
preserves pairwise-distinct transaction ids; and reprocessing an event whose
transaction id is already stored replaces that record in place, leaving the
total number of stored records unchanged.  For the Supabase adapter the same
two properties hold of its row transformation. -/
theorem upsert_unique_per_transactionId (d : String) :
    (∀ s p now, uniqueByTid (s.subs d) →
      uniqueByTid ((upsertSubscription s d p now).2.subs d))
    ∧ (∀ (events : List (Purchase × Int)) s, uniqueByTid (s.subs d) →
        uniqueByTid
          (((events.foldl (fun st e => (upsertSubscription st d e.1 e.2).2) s)).subs d))
    ∧ (∀ s p now, s.upsertFails = false → uniqueByTid (s.subs d) →
        upsertTransactionId p now ∈ (s.subs d).map SubscriptionData.transactionId →
        ((upsertSubscription s d p now).2.subs d).length = (s.subs d).length ∧
        ∃ l1 old l2, s.subs d = l1 ++ old :: l2 ∧
          old.transactionId = upsertTransactionId p now ∧
          (upsertSubscription s d p now).2.subs d
            = l1 ++ buildSubscriptionData p (upsertTransactionId p now) now :: l2)
    ∧ (∀ (rows : List SubscriptionData) (data : SubscriptionData), uniqueByTid rows →
        uniqueByTid (supabaseUpsertRows data rows))
    ∧ (∀ (rows : List SubscriptionData) (data : SubscriptionData), uniqueByTid rows →
        data.transactionId ∈ rows.map SubscriptionData.transactionId →
        (supabaseUpsertRows data rows).length = rows.length) := by
  refine ⟨fun s p now h => upsertSubscription_unique s d p now h,
    fun events s h => foldl_upsert_unique d events s h, ?_,
    fun rows data h => uniqueByTid_supabaseUpsertRows data rows h,
    fun rows data h hm => supabaseUpsertRows_length data rows h hm⟩
  intro s p now hf h hm
  have hsubs := upsertSubscription_subs s d p now hf
  obtain ⟨l1, old, l2, heq, hold, hres⟩ :=
    upsertIntoList_replace (buildSubscriptionData p (upsertTransactionId p now) now)
      (s.subs d) h (by simpa using hm)
  constructor
  · rw [hsubs, hres, heq]
    simp
  · exact ⟨l1, old, l2, heq, by simpa using hold, by rw [hsubs, hres]⟩

/-- Witness for `upsert_unique_per_transactionId`: reprocessing the event
`cP1` (transaction id `"t1"`, already stored in `cS9`) keeps the stored
records unique and leaves their number unchanged. -/
theorem upsert_unique_per_transactionId_witness :
    uniqueByTid ((upsertSubscription cS9 "dev" cP1 1000).2.subs "dev") ∧
    ((upsertSubscription cS9 "dev" cP1 1000).2.subs "dev").length
      = (cS9.subs "dev").length := by
  have h9 : uniqueByTid (cS9.subs "dev") := by
    unfold uniqueByTid
    simp [cS9]
  exact ⟨(upsert_unique_per_transactionId "dev").1 cS9 cP1 1000 h9,
    ((upsert_unique_per_transactionId "dev").2.2.1 cS9 cP1 1000 rfl h9 (by decide)).1⟩

/-! ## C10 — what a renew decision writes -/

/-- C10: whenever `checkAndHandleRenewal` decides "renew" (the event is
active, carries a truthy original transaction id, and `shouldRenew` agrees),
it returns `true` and stores the user with `subscriptionPlan` set to the
fixed string `"pro"` and `generationsLeft` set to the configured
`proTierLimit` — regardless of the event's `productId` and of whatever plan
string was previously stored (both are universally quantified here and
absent from the conclusion). -/
theorem renew_sets_pro_plan (cfg : TokenConfig) (s : StoreState) (d : String)
    (p : Purchase) (now : Int) (otid : String) (u : UserData)
    (hact : eventIsActive p now = true)
    (hotid : truthyStr p.originalTransactionIdentifierIOS = some otid)
    (hren : shouldRenew s d otid (effectiveTransactionDate p now) = true)
    (hu : s.users d = some u) :
    (checkAndHandleRenewal cfg s d p now).1 = true ∧
    (checkAndHandleRenewal cfg s d p now).2.users d
      = some { u with
          subscriptionPlan := some "pro"
          generationsLeft := cfg.proTierLimit
          lastRenewalAt := some now } := by
  rw [checkAndHandleRenewal_renew cfg s d p now otid u hact hotid hren hu]
  exact ⟨rfl, setUser_users_self _ d _⟩

/-- Witness for `renew_sets_pro_plan` on the concrete store `cS0` and event
`cP1`. -/
theorem renew_sets_pro_plan_witness :
    (checkAndHandleRenewal cCfg cS0 "dev" cP1 1000).1 = true ∧
    (checkAndHandleRenewal cCfg cS0 "dev" cP1 1000).2.users "dev"
      = some { cU0 with
          subscriptionPlan := some "pro"
          generationsLeft := cCfg.proTierLimit
          lastRenewalAt := some 1000 } :=
  renew_sets_pro_plan cCfg cS0 "dev" cP1 1000 "o1" cU0 rfl rfl (by decide) (by decide)
